import Mathlib

/-!
Shallow embedding of the core signal-processing pipeline of the
FreqEnforcer (`spartan_tuner`) repository, together with proofs about the
frozen specification claims.

Modelling conventions:
* Audio samples and frequencies (Python `float`) are modelled as exact
  rationals `ℚ`; machine non-finiteness (`NaN` / `inf`) is modelled with
  `Option` at the places where the code inspects it.
* External collaborators (pyworld, librosa, scipy, numpy's `exp` and
  `gaussian_filter1d`, the audiotsm / pylibrb stretch engines) are passed
  in as explicit function parameters; the repository's own control flow
  and arithmetic around them is embedded from the source.
* Python's `%` and `//` on `int` agree with Lean's `%` and `/` on `ℤ`
  (`Int.emod` / `Int.ediv`) for positive divisors, which is the only way
  the repository uses them.
-/

namespace SpartanTuner

/-- The three recognized `voicing_mode` strings of `audio/autotuner.py`
(`strict`, `force`, `dilate`). Any other string raises `ValueError`
(lines 70-71); that error branch is modelled by this argument ranging
over exactly the three recognized constructors. -/
inductive VoicingMode
| strict
| force
| dilate
deriving DecidableEq

/-- NumPy boolean slice assignment `out[start:end] = True`, walking the
list with an explicit running index `j`. -/
def set_true_from (start stop : ℤ) : ℕ → List Bool → List Bool
| _, [] => []
| j, b :: rest =>
  (if start ≤ (j : ℤ) ∧ (j : ℤ) < stop then true else b) ::
    set_true_from start stop (j + 1) rest

/-- `_dilate_voiced_mask` (autotuner.py lines 392-412): every raw voiced
index `i` sets `out[max(0, i-d) : min(n, i+d+1)] = True`; an empty mask or
`d <= 0` returns the mask unchanged (the source also returns the
unmodified copy when there is no voiced index, which coincides with the
fold over an empty index list). -/
def _dilate_voiced_mask (voiced_mask : List Bool) (dilation_frames : ℤ) : List Bool :=
  let n := voiced_mask.length
  if n = 0 then voiced_mask
  else if dilation_frames ≤ 0 then voiced_mask
  else
    let voiced_idx := (List.range n).filter fun i => voiced_mask.getD i false
    voiced_idx.foldl
      (fun (out : List Bool) (i : ℕ) =>
        let start : ℤ := if (i : ℤ) - dilation_frames < 0 then 0 else (i : ℤ) - dilation_frames
        let stop : ℤ :=
          if (n : ℤ) < (i : ℤ) + dilation_frames + 1 then (n : ℤ)
          else (i : ℤ) + dilation_frames + 1
        set_true_from start stop 0 out)
      voiced_mask

/-- Lines 63-71 of `autotune_to_note` (and the identical lines 156-163 of
`autotune_soft_to_note` and 458-466 of `autotune_with_formant_shift`):
derive the correction mask `new_voiced_mask` from the raw contour, where a
frame is raw-voiced when `f0 > 0`; `force` is `np.ones_like(voiced_mask)`. -/
def new_voiced_mask (voicing_mode : VoicingMode) (dilation_frames : ℤ) (f0 : List ℚ) : List Bool :=
  let voiced_mask := f0.map fun v => decide (0 < v)
  match voicing_mode with
  | .strict => voiced_mask
  | .force => voiced_mask.map fun _ => true
  | .dilate => _dilate_voiced_mask voiced_mask dilation_frames

/-- `np.interp` evaluated at one point: piecewise-linear interpolation
through the sample points `pts` (sorted by first component), with constant
extrapolation beyond either end. -/
def interp_pt : List (ℚ × ℚ) → ℚ → ℚ
| [], _ => 0
| [p], _ => p.2
| p :: q :: rest, x =>
  if x ≤ p.1 then p.2
  else if x ≤ q.1 then p.2 + (q.2 - p.2) * (x - p.1) / (q.1 - p.1)
  else interp_pt (q :: rest) x

/-- `idx[voiced_mask]` zipped with `f0[voiced_mask]`: the (index, f0)
sample points of the raw-voiced frames (autotuner.py lines 76-78). -/
def voiced_points (f0 : List ℚ) : List (ℚ × ℚ) :=
  (((List.range f0.length).zip f0).filter fun p => decide (0 < p.2)).map
    fun p => ((p.1 : ℚ), p.2)

/-- `filled = np.interp(idx, voiced_idx, voiced_f0)` (autotuner.py line 79). -/
def interp_fill (f0 : List ℚ) : List ℚ :=
  (List.range f0.length).map fun i => interp_pt (voiced_points f0) (i : ℚ)

/-- Lines 73-82 of `autotune_to_note` (identical to lines 468-477 of
`autotune_with_formant_shift`): the analysis contour handed to the
spectral-envelope (`cheaptrick`) and aperiodicity (`d4c`) estimators.
For `force` / `dilate`, unvoiced gaps are interpolated; when no frame is
voiced the contour is filled with `target_freq` (line 82). -/
def autotune_to_note_analysis_f0 (voicing_mode : VoicingMode) (target_freq : ℚ) (f0 : List ℚ) : List ℚ :=
  match voicing_mode with
  | .strict => f0
  | _ =>
    if f0.any fun v => decide (0 < v) then interp_fill f0
    else List.replicate f0.length target_freq

/-- Line 89 of `autotune_to_note`:
`new_f0 = np.where(new_voiced_mask, target_freq, 0.0)`. -/
def autotune_to_note_new_f0 (voicing_mode : VoicingMode) (dilation_frames : ℤ)
    (target_freq : ℚ) (f0 : List ℚ) : List ℚ :=
  (new_voiced_mask voicing_mode dilation_frames f0).map fun b => if b then target_freq else 0

/-- Line 483 of `autotune_with_formant_shift`: the same flatten expression
`new_f0 = np.where(new_voiced_mask, target_freq, 0.0)`. -/
def autotune_with_formant_shift_new_f0 (voicing_mode : VoicingMode) (dilation_frames : ℤ)
    (target_freq : ℚ) (f0 : List ℚ) : List ℚ :=
  (new_voiced_mask voicing_mode dilation_frames f0).map fun b => if b then target_freq else 0

/-- Lines 165-173 of `autotune_soft_to_note`. Unlike the hard-mode
functions, the gap fill runs for every voicing mode; with no voiced frame
the whole contour is filled with `target_freq` (line 173). -/
def autotune_soft_analysis_f0 (target_freq : ℚ) (f0 : List ℚ) : List ℚ :=
  if f0.any fun v => decide (0 < v) then interp_fill f0
  else List.replicate f0.length target_freq

/-- Lines 195-200 of `autotune_soft_to_note`: `x[i] = log2(analysis_f0[i])`
where `analysis_f0[i] > 0` and `NaN` elsewhere, then
`if not np.any(np.isfinite(x)): return audio_arr`. The result is `true`
exactly when that guard fires, i.e. when the function returns its input
audio unchanged instead of resynthesizing. -/
def autotune_soft_returns_input_unchanged (target_freq : ℚ) (f0 : List ℚ) : Bool :=
  !((autotune_soft_analysis_f0 target_freq f0).any fun v => decide (0 < v))

/-- C1: hard-mode flatten. In both `autotune_to_note` and
`autotune_with_formant_shift`, frame `i` of the new f0 contour equals the
target frequency exactly where the derived correction mask is true and
exactly 0 where it is false. -/
theorem hard_mode_flatten (voicing_mode : VoicingMode) (dilation_frames : ℤ)
    (target_freq : ℚ) (f0 : List ℚ) (i : ℕ) :
    (autotune_to_note_new_f0 voicing_mode dilation_frames target_freq f0)[i]? =
      ((new_voiced_mask voicing_mode dilation_frames f0)[i]?).map
        (fun b => if b then target_freq else 0) ∧
    (autotune_with_formant_shift_new_f0 voicing_mode dilation_frames target_freq f0)[i]? =
      ((new_voiced_mask voicing_mode dilation_frames f0)[i]?).map
        (fun b => if b then target_freq else 0) := by
  constructor <;>
    simp [autotune_to_note_new_f0, autotune_with_formant_shift_new_f0, List.getElem?_map]

/-- C4 (counterexample): on an all-unvoiced contour, `autotune_to_note`
under `force` fills the analysis contour with the target frequency
(here 440 Hz, note A4), not with the constant 1.0 Hz. -/
theorem analysis_f0_fallback_not_one :
    (∀ v ∈ ([0, 0, 0] : List ℚ), ¬ (0 < v)) ∧
    autotune_to_note_analysis_f0 .force 440 [0, 0, 0] = [440, 440, 440] ∧
    (440 : ℚ) ≠ 1 := by
  refine ⟨by decide, by rfl, by norm_num⟩

/-- C4 (amended): with no voiced frame, hard-mode correction under
`force` or `dilate` fills the analysis f0 contour with the target
frequency at every frame. -/
theorem analysis_f0_no_voiced_fill (voicing_mode : VoicingMode) (target_freq : ℚ)
    (f0 : List ℚ) (hmode : voicing_mode ≠ .strict) (hnv : ∀ v ∈ f0, v ≤ 0) :
    autotune_to_note_analysis_f0 voicing_mode target_freq f0 =
      List.replicate f0.length target_freq := by
  have hany : (f0.any fun v => decide (0 < v)) = false := by
    simp only [List.any_eq_false, decide_eq_true_eq, not_lt]
    exact hnv
  cases voicing_mode with
  | strict => exact absurd rfl hmode
  | force => simp [autotune_to_note_analysis_f0, hany]
  | dilate => simp [autotune_to_note_analysis_f0, hany]

/-- Witness for the amended C4 at a concrete input. -/
theorem analysis_f0_no_voiced_fill_witness :
    autotune_to_note_analysis_f0 .force 440 [0, 0] = [440, 440] := by
  rw [analysis_f0_no_voiced_fill .force 440 [0, 0] (by decide) (by decide)]
  rfl

/-- C2 (code evaluated at the failing input): for a contour with no voiced
frame, `autotune_soft_to_note` does not return the input unchanged — the
no-voiced guard of lines 199-200 cannot fire, because line 173 has already
filled `analysis_f0` with the (positive) target frequency. -/
theorem soft_no_voiced_guard_dead :
    (∀ v ∈ ([0, 0, 0] : List ℚ), ¬ (0 < v)) ∧
    autotune_soft_analysis_f0 440 [0, 0, 0] = [440, 440, 440] ∧
    autotune_soft_returns_input_unchanged 440 [0, 0, 0] = false := by
  refine ⟨by decide, by rfl, by rfl⟩

theorem set_true_from_length (start stop : ℤ) :
    ∀ (j : ℕ) (l : List Bool), (set_true_from start stop j l).length = l.length := by
  intro j l
  induction l generalizing j with
  | nil => rfl
  | cons b rest ih => simp [set_true_from, ih]

theorem set_true_from_getD_mono (start stop : ℤ) :
    ∀ (j : ℕ) (l : List Bool) (i : ℕ), l.getD i false = true →
      (set_true_from start stop j l).getD i false = true := by
  intro j l
  induction l generalizing j with
  | nil => intro i h; simp at h
  | cons b rest ih =>
    intro i h
    cases i with
    | zero =>
      simp only [List.getD_cons_zero] at h
      subst h
      simp [set_true_from]
    | succ k =>
      simp only [List.getD_cons_succ] at h ⊢
      exact ih (j + 1) k h

theorem set_true_from_getD_true (start stop : ℤ) :
    ∀ (j : ℕ) (l : List Bool) (i : ℕ), i < l.length →
      start ≤ (j : ℤ) + (i : ℤ) → (j : ℤ) + (i : ℤ) < stop →
      (set_true_from start stop j l).getD i false = true := by
  intro j l
  induction l generalizing j with
  | nil => intro i hi; simp at hi
  | cons b rest ih =>
    intro i hi h1 h2
    cases i with
    | zero =>
      have : start ≤ (j : ℤ) ∧ (j : ℤ) < stop := by constructor <;> omega
      simp [set_true_from, this]
    | succ k =>
      simp only [set_true_from, List.getD_cons_succ]
      refine ih (j + 1) k (by simpa using Nat.lt_of_succ_lt_succ hi) (by push_cast; omega)
        (by push_cast; omega)

/-- The fold inside `_dilate_voiced_mask` never clears a bit that is
already set. -/
theorem dilate_fold_mono (d : ℤ) (n : ℕ) :
    ∀ (l : List ℕ) (acc : List Bool) (j : ℕ), acc.getD j false = true →
      (l.foldl
        (fun (out : List Bool) (k : ℕ) =>
          set_true_from (if (k : ℤ) - d < 0 then 0 else (k : ℤ) - d)
            (if (n : ℤ) < (k : ℤ) + d + 1 then (n : ℤ) else (k : ℤ) + d + 1) 0 out)
        acc).getD j false = true := by
  intro l
  induction l with
  | nil => intro acc j h; simpa using h
  | cons x xs ih =>
    intro acc j h
    simp only [List.foldl_cons]
    exact ih _ j (set_true_from_getD_mono _ _ 0 acc j h)

/-- Once the fold inside `_dilate_voiced_mask` has processed a voiced
index `i`, every in-bounds index within distance `d` of `i` is set. -/
theorem dilate_fold_sets (d : ℤ) (n : ℕ) (i j : ℕ)
    (h1 : (i : ℤ) - d ≤ (j : ℤ)) (h2 : (j : ℤ) ≤ (i : ℤ) + d) (hj : j < n) :
    ∀ (l : List ℕ) (acc : List Bool), acc.length = n → i ∈ l →
      (l.foldl
        (fun (out : List Bool) (k : ℕ) =>
          set_true_from (if (k : ℤ) - d < 0 then 0 else (k : ℤ) - d)
            (if (n : ℤ) < (k : ℤ) + d + 1 then (n : ℤ) else (k : ℤ) + d + 1) 0 out)
        acc).getD j false = true := by
  intro l
  induction l with
  | nil => intro acc _ hmem; simp at hmem
  | cons x xs ih =>
    intro acc hlen hmem
    simp only [List.foldl_cons]
    rcases List.mem_cons.mp hmem with rfl | hx
    · apply dilate_fold_mono
      apply set_true_from_getD_true
      · omega
      · split <;> push_cast <;> omega
      · split <;> push_cast <;> omega
    · exact ih _ (by rw [set_true_from_length]; exact hlen) hx

/-- Core property of `_dilate_voiced_mask`: every raw-voiced index `i`
marks every in-bounds index within distance `d` of it. -/
theorem _dilate_voiced_mask_getD_true (voiced_mask : List Bool) (d : ℤ) (i j : ℕ)
    (hvi : voiced_mask.getD i false = true)
    (h1 : (i : ℤ) - d ≤ (j : ℤ)) (h2 : (j : ℤ) ≤ (i : ℤ) + d)
    (hj : j < voiced_mask.length) :
    (_dilate_voiced_mask voiced_mask d).getD j false = true := by
  have hi : i < voiced_mask.length := by
    by_contra hge
    rw [List.getD_eq_default _ _ (Nat.le_of_not_lt hge)] at hvi
    exact Bool.false_ne_true hvi
  have hn : voiced_mask.length ≠ 0 := by omega
  by_cases hd : d ≤ 0
  · have hij : i = j := by omega
    subst hij
    rw [_dilate_voiced_mask, if_neg hn, if_pos hd]
    exact hvi
  · rw [_dilate_voiced_mask, if_neg hn, if_neg hd]
    have hmem : i ∈ (List.range voiced_mask.length).filter
        (fun k => voiced_mask.getD k false) := by
      rw [List.mem_filter]
      exact ⟨List.mem_range.mpr hi, hvi⟩
    exact dilate_fold_sets d voiced_mask.length i j h1 h2 hj _ voiced_mask rfl hmem

/-- `d <= 0` leaves the mask unchanged (source lines 398-400). -/
theorem _dilate_voiced_mask_nonpos (voiced_mask : List Bool) (d : ℤ) (hd : d ≤ 0) :
    _dilate_voiced_mask voiced_mask d = voiced_mask := by
  by_cases hn : voiced_mask.length = 0
  · rw [_dilate_voiced_mask, if_pos hn]
  · rw [_dilate_voiced_mask, if_neg hn, if_pos hd]

/-- C3: voicing-mask derivation. `force` yields an all-true correction
mask; `dilate` marks, for every raw-voiced frame `i`, all in-bounds
indices of `[i - d, i + d]`, and is therefore a superset of the raw
voiced mask. -/
theorem voicing_policy_force_dilate (d : ℤ) (f0 : List ℚ) :
    (∀ j, j < f0.length → (new_voiced_mask .force d f0).getD j false = true) ∧
    (∀ (i j : ℕ), i < f0.length → 0 < f0.getD i 0 →
      (i : ℤ) - d ≤ (j : ℤ) → (j : ℤ) ≤ (i : ℤ) + d → j < f0.length →
      (new_voiced_mask .dilate d f0).getD j false = true) ∧
    (∀ j, j < f0.length → 0 < f0.getD j 0 →
      (new_voiced_mask .dilate d f0).getD j false = true) := by
  have hraw : ∀ i, i < f0.length →
      ((f0.map fun v => decide (0 < v)).getD i false) = decide (0 < f0.getD i 0) := by
    intro i hi
    rw [List.getD_eq_getElem _ _ (by simpa using hi), List.getElem_map,
      List.getD_eq_getElem _ _ hi]
  refine ⟨?_, ?_, ?_⟩
  · intro j hj
    show ((f0.map fun v => decide (0 < v)).map fun _ => true).getD j false = true
    rw [List.getD_eq_getElem _ _ (by simpa using hj), List.getElem_map]
  · intro i j hi hvi h1 h2 hj
    show (_dilate_voiced_mask (f0.map fun v => decide (0 < v)) d).getD j false = true
    refine _dilate_voiced_mask_getD_true _ d i j ?_ h1 h2 (by simpa using hj)
    rw [hraw i hi]
    exact decide_eq_true hvi
  · intro j hj hvj
    show (_dilate_voiced_mask (f0.map fun v => decide (0 < v)) d).getD j false = true
    by_cases hd : d ≤ 0
    · rw [_dilate_voiced_mask_nonpos _ _ hd, hraw j hj]
      exact decide_eq_true hvj
    · refine _dilate_voiced_mask_getD_true _ d j j ?_ (by omega) (by omega)
        (by simpa using hj)
      rw [hraw j hj]
      exact decide_eq_true hvj

/-- Witness for C3 at a concrete contour: `f0 = [1, 0]`, `d = 1`. -/
theorem voicing_policy_force_dilate_witness :
    (new_voiced_mask .force 1 [1, 0]).getD 1 false = true ∧
    (new_voiced_mask .dilate 1 [1, 0]).getD 1 false = true ∧
    (new_voiced_mask .dilate 1 [1, 0]).getD 0 false = true :=
  ⟨(voicing_policy_force_dilate 1 [1, 0]).1 1 (by norm_num),
   (voicing_policy_force_dilate 1 [1, 0]).2.1 0 1 (by norm_num) (by norm_num)
     (by omega) (by omega) (by norm_num),
   (voicing_policy_force_dilate 1 [1, 0]).2.2 0 (by norm_num) (by norm_num)⟩

/-- `_shift_spectral_envelope` (autotuner.py lines 369-389): resample one
spectral-envelope frame along its index axis by `1 / ratio` with linear
interpolation, clamping indices to the valid range. The `ratio` argument
is `none` when the Python float is non-finite (`np.isfinite` fails,
line 375); `ratio <= 0` likewise returns the frame unchanged. -/
def _shift_spectral_envelope (sp_frame : List ℚ) (r : Option ℚ) : List ℚ :=
  match r with
  | none => sp_frame
  | some ratio_f =>
    if ratio_f ≤ 0 then sp_frame
    else
      let length := sp_frame.length
      (List.range length).map fun (i : ℕ) =>
        let idx : ℚ := min (max ((i : ℚ) / ratio_f) 0) ((length : ℚ) - 1)
        let fl : ℤ := ⌊idx⌋
        let ce : ℤ := min (fl + 1) ((length : ℤ) - 1)
        let w : ℚ := idx - (fl : ℚ)
        sp_frame.getD fl.toNat 0 * (1 - w) + sp_frame.getD ce.toNat 0 * w

/-- C7: FormantShifter identity. `_shift_spectral_envelope` is the
identity on every frame when `ratio = 1`, and returns the frame unchanged
(never raising) for every non-positive or non-finite ratio. -/
theorem formant_shift_identity (sp_frame : List ℚ) :
    _shift_spectral_envelope sp_frame (some 1) = sp_frame ∧
    (∀ r : ℚ, r ≤ 0 → _shift_spectral_envelope sp_frame (some r) = sp_frame) ∧
    _shift_spectral_envelope sp_frame none = sp_frame := by
  refine ⟨?_, ?_, rfl⟩
  · rw [_shift_spectral_envelope, if_neg (by norm_num)]
    refine List.ext_getElem (by simp) ?_
    intro i h1 h2
    simp only [List.getElem_map, List.getElem_range]
    have hle : (i : ℚ) ≤ (sp_frame.length : ℚ) - 1 := by
      have h : (i : ℤ) ≤ (sp_frame.length : ℤ) - 1 := by omega
      exact_mod_cast h
    rw [div_one, max_eq_left (by positivity), min_eq_left hle, Int.floor_natCast]
    simp [List.getD, List.getElem?_eq_getElem h2]
  · intro r hr
    rw [_shift_spectral_envelope, if_pos hr]

/-- Witness for C7 at a concrete frame. -/
theorem formant_shift_identity_witness :
    _shift_spectral_envelope [5, 7] (some 1) = [5, 7] ∧
    _shift_spectral_envelope [5, 7] (some (-2)) = [5, 7] ∧
    _shift_spectral_envelope [5, 7] none = [5, 7] :=
  ⟨(formant_shift_identity [5, 7]).1,
   (formant_shift_identity [5, 7]).2.1 (-2) (by norm_num),
   (formant_shift_identity [5, 7]).2.2⟩

/-- `np.clip(x, 0.0, 1.0)`. -/
def np_clip01 (x : ℚ) : ℚ := min (max x 0) 1

theorem np_clip01_mem (x : ℚ) : 0 ≤ np_clip01 x ∧ np_clip01 x ≤ 1 :=
  ⟨le_min (le_max_right x 0) zero_le_one, min_le_right _ _⟩

/-- `np.rint`: round to the nearest integer, ties to even. -/
def _rint (q : ℚ) : ℤ :=
  let f := ⌊q⌋
  let r := q - (f : ℚ)
  if r < 1 / 2 then f
  else if 1 / 2 < r then f + 1
  else if Even f then f else f + 1

/-- The `unvoiced_frames` flags of `apply_cleanliness`
(cleanliness.py lines 96-107): a frame is flagged when
`preserve_unvoiced` holds and pyin reported it unvoiced, or when its f0
estimate is `NaN` (modelled as `none`) or non-positive. -/
def cleanliness_unvoiced_frames {nT : ℕ} (preserve_unvoiced : Bool)
    (voiced_flag : Fin nT → Bool) (f0 : Fin nT → Option ℚ) : Fin nT → Bool :=
  fun t =>
    if preserve_unvoiced ∧ voiced_flag t = false then true
    else
      match f0 t with
      | none => true
      | some v => decide (v ≤ 0)

/-- The per-frame mask loop of `apply_cleanliness` (cleanliness.py lines
95-120). `ex` is numpy's `exp` (an external collaborator): the invariant
proofs below hold for every such function, because the code clips the
mask to `[0, 1]` afterwards. -/
def cleanliness_initial_mask {nF nT : ℕ} (ex : ℚ → ℚ) (freqs : Fin nF → ℚ)
    (f0 : Fin nT → Option ℚ) (voiced_flag : Fin nT → Bool)
    (sigma_hz : ℚ) (preserve_unvoiced : Bool) : Fin nF → Fin nT → ℚ :=
  fun f t =>
    if preserve_unvoiced ∧ voiced_flag t = false then 1
    else
      match f0 t with
      | none => 1
      | some v =>
        if v ≤ 0 then 1
        else if sigma_hz ≤ 0 then 1
        else
          let k : ℚ := (_rint (freqs f / v) : ℚ)
          let harmonic := k * v
          let dist := |freqs f - harmonic|
          ex (-(1 / 2) * (dist / sigma_hz) ^ 2)

/-- The full time-frequency mask of `apply_cleanliness` (cleanliness.py
lines 55-60 and 91-130): clamp the percentage, build the per-frame comb,
clip, smooth across time (`gauss` stands for scipy's `gaussian_filter1d`,
an external collaborator), re-clip, re-force unvoiced columns when
`preserve_unvoiced`, and force every bin at or above the bypass frequency
(defaulted and clamped to Nyquist) to 1. -/
def apply_cleanliness_mask {nF nT : ℕ} (ex : ℚ → ℚ)
    (gauss : (Fin nF → Fin nT → ℚ) → (Fin nF → Fin nT → ℚ))
    (freqs : Fin nF → ℚ) (f0 : Fin nT → Option ℚ) (voiced_flag : Fin nT → Bool)
    (cleanliness_percent sr hf_bypass_hz : ℚ)
    (preserve_unvoiced : Bool) : Fin nF → Fin nT → ℚ :=
  let pct := min 100 (max 0 cleanliness_percent)
  let bandwidth_hz := 200 - (pct / 100) * (200 - 10)
  let sigma_hz := bandwidth_hz / (2355 / 1000)
  let unvoiced_frames := cleanliness_unvoiced_frames preserve_unvoiced voiced_flag f0
  let m0 := cleanliness_initial_mask ex freqs f0 voiced_flag sigma_hz preserve_unvoiced
  let m1 : Fin nF → Fin nT → ℚ := fun f t => np_clip01 (m0 f t)
  let m2 := gauss m1
  let m3 : Fin nF → Fin nT → ℚ := fun f t => np_clip01 (m2 f t)
  let m4 : Fin nF → Fin nT → ℚ :=
    if preserve_unvoiced ∧ ∃ t, unvoiced_frames t then
      fun f t => if unvoiced_frames t then 1 else m3 f t
    else m3
  let bypass_start_hz := min (if hf_bypass_hz ≤ 0 then sr / 2 else hf_bypass_hz) (sr / 2)
  fun f t => if bypass_start_hz ≤ freqs f then 1 else m4 f t

/-- `apply_cleanliness` (cleanliness.py lines 40-53): argument checks and
the two identity early returns. A `List ℚ` input is mono by construction,
so the `ndim != 1` `ValueError` has no representable trigger. `spectral`
stands for the whole spectral path from line 62 on (librosa stft / pyin,
the mask above, istft); the identity cases return before it is consulted. -/
def apply_cleanliness (spectral : List ℚ → ℤ → ℚ → List ℚ) (audio : List ℚ) (sr : ℤ)
    (cleanliness_percent : ℚ) : Except String (List ℚ) :=
  if sr ≤ 0 then .error "sr must be a positive integer"
  else if cleanliness_percent ≤ 0 then .ok audio
  else if ((audio.length : ℚ) / (sr : ℚ)) < 1 / 5 then .ok audio
  else .ok (spectral audio sr cleanliness_percent)

/-- C6: `apply_cleanliness` identity cases: with a valid sample rate,
`cleanliness_percent <= 0` returns the input unchanged for every possible
spectral path, and so does a buffer shorter than 0.2 s. -/
theorem apply_cleanliness_identity_cases (spectral : List ℚ → ℤ → ℚ → List ℚ)
    (audio : List ℚ) (sr : ℤ) (cleanliness_percent : ℚ) (hsr : 0 < sr) :
    (cleanliness_percent ≤ 0 →
      apply_cleanliness spectral audio sr cleanliness_percent = .ok audio) ∧
    ((audio.length : ℚ) / (sr : ℚ) < 1 / 5 →
      apply_cleanliness spectral audio sr cleanliness_percent = .ok audio) := by
  constructor
  · intro h
    rw [apply_cleanliness, if_neg (by omega), if_pos h]
  · intro h
    rw [apply_cleanliness, if_neg (by omega)]
    by_cases hc : cleanliness_percent ≤ 0
    · rw [if_pos hc]
    · rw [if_neg hc, if_pos h]

/-- Witness for C6: one-sample buffer at 44100 Hz. -/
theorem apply_cleanliness_identity_cases_witness :
    apply_cleanliness (fun _ _ _ => []) [1] 44100 0 = .ok [1] ∧
    apply_cleanliness (fun _ _ _ => []) [1] 44100 50 = .ok [1] :=
  ⟨(apply_cleanliness_identity_cases (fun _ _ _ => []) [1] 44100 0 (by norm_num)).1
      (by norm_num),
   (apply_cleanliness_identity_cases (fun _ _ _ => []) [1] 44100 50 (by norm_num)).2
      (by norm_num)⟩

/-- C5: harmonic-mask invariant. With `cleanliness_percent > 0`, every
entry of the final mask lies in `[0, 1]` (for every external `exp` and
temporal smoother), and with `preserve_unvoiced` every frame pyin marked
unvoiced keeps a full column of ones after the smoothing step. -/
theorem cleanliness_mask_bounds (nF nT : ℕ) (ex : ℚ → ℚ)
    (gauss : (Fin nF → Fin nT → ℚ) → (Fin nF → Fin nT → ℚ))
    (freqs : Fin nF → ℚ) (f0 : Fin nT → Option ℚ) (voiced_flag : Fin nT → Bool)
    (cleanliness_percent sr hf_bypass_hz : ℚ) (preserve_unvoiced : Bool)
    (_hpos : 0 < cleanliness_percent) :
    (∀ f t, 0 ≤ apply_cleanliness_mask ex gauss freqs f0 voiced_flag
        cleanliness_percent sr hf_bypass_hz preserve_unvoiced f t ∧
      apply_cleanliness_mask ex gauss freqs f0 voiced_flag
        cleanliness_percent sr hf_bypass_hz preserve_unvoiced f t ≤ 1) ∧
    (preserve_unvoiced = true → ∀ t, voiced_flag t = false → ∀ f,
      apply_cleanliness_mask ex gauss freqs f0 voiced_flag
        cleanliness_percent sr hf_bypass_hz preserve_unvoiced f t = 1) := by
  constructor
  · intro f t
    simp only [apply_cleanliness_mask]
    by_cases h1 :
        min (if hf_bypass_hz ≤ 0 then sr / 2 else hf_bypass_hz) (sr / 2) ≤ freqs f
    · rw [if_pos h1]
      exact ⟨zero_le_one, le_refl 1⟩
    · rw [if_neg h1]
      by_cases h2 : (preserve_unvoiced = true) ∧
          ∃ u, cleanliness_unvoiced_frames preserve_unvoiced voiced_flag f0 u = true
      · rw [if_pos h2]
        by_cases h3 : cleanliness_unvoiced_frames preserve_unvoiced voiced_flag f0 t = true
        · simp only [h3, if_true]
          exact ⟨zero_le_one, le_refl 1⟩
        · simp only [h3, if_false]
          exact np_clip01_mem _
      · rw [if_neg h2]
        exact np_clip01_mem _
  · intro hpu t hv f
    subst hpu
    have hunv : cleanliness_unvoiced_frames true voiced_flag f0 t = true := by
      simp [cleanliness_unvoiced_frames, hv]
    simp only [apply_cleanliness_mask]
    by_cases h1 :
        min (if hf_bypass_hz ≤ 0 then sr / 2 else hf_bypass_hz) (sr / 2) ≤ freqs f
    · rw [if_pos h1]
    · rw [if_neg h1, if_pos ⟨trivial, ⟨t, hunv⟩⟩]
      simp [hunv]

/-- Witness for C5: 1x1 mask, pyin reporting the single frame unvoiced. -/
theorem cleanliness_mask_bounds_witness :
    apply_cleanliness_mask (fun _ => 0) (fun m => m) (fun _ => 0) (fun _ => none)
      (fun _ => false) 50 44100 0 true (0 : Fin 1) (0 : Fin 1) = 1 :=
  (cleanliness_mask_bounds 1 1 (fun _ => 0) (fun m => m) (fun _ => 0) (fun _ => none)
    (fun _ => false) 50 44100 0 true (by norm_num)).2 rfl 0 rfl 0

/-- The optional external engines the time-stretch adapters import
(time_stretch.py lines 33-47, 83-99, 205-208). -/
inductive Dep
| audiotsm
| pylibrb
| librosa
deriving DecidableEq

/-- The error taxonomy of the time-stretch dispatch, as it appears to the
callers (render_stretch_variants.py lines 62-92, ui/main_window.py lines
100-102): Python `ValueError` (the spec's `InvalidArgument`),
`MissingDependencyError` (the spec's `MissingCapability`, caught
separately from generic `Exception` at line 84 of
render_stretch_variants.py), and everything else. -/
inductive StretchError
| invalid_argument (msg : String)
| missing_capability (msg : String)
| generic (msg : String)
deriving DecidableEq

/-- The external stretch engines themselves (audiotsm, pylibrb, librosa's
pyin and the numeric synthesis loop of `tdpsola`, lines 210-280, whose
windows use `np.hanning`): modelled as opaque collaborators. Only the
repository's own argument checks and error raises are embedded. -/
structure StretchExternals where
  audiotsm_run : String → List ℚ → ℤ → ℚ → List ℚ
  pylibrb_run : String → String → List ℚ → ℤ → ℚ → List ℚ
  pyin_f0 : List ℚ → ℤ → List (Option ℚ)
  tdpsola_synth : List ℚ → ℤ → ℚ → ℚ → List ℚ

/-- `StretchFn` (time_stretch.py line 13), with the external engines and
the set of installed optional dependencies made explicit. -/
def StretchFn : Type :=
  StretchExternals → (Dep → Bool) → List ℚ → ℤ → ℚ → Except StretchError (List ℚ)

/-- `_as_mono_float` (lines 16-25): a `List ℚ` is mono by construction
and has no `NaN`/`Inf`, so the representable checks are emptiness and the
clip to `[-1, 1]`. -/
def _as_mono_float (audio : List ℚ) : Except StretchError (List ℚ) :=
  if audio.length = 0 then .error (.invalid_argument "audio must be non-empty")
  else .ok (audio.map fun s => min (max s (-1)) 1)

/-- `_audiotsm_stretch` (lines 28-68): audio checks, sample-rate check,
the audiotsm import (raising `MissingDependencyError` when absent), then
the factor check and the engine call. -/
def _audiotsm_stretch (ext : StretchExternals) (installed : Dep → Bool)
    (audio : List ℚ) (sr : ℤ) (stretch_factor : ℚ)
    (procedure : String) : Except StretchError (List ℚ) :=
  match _as_mono_float audio with
  | .error e => .error e
  | .ok audio_arr =>
    if sr ≤ 0 then .error (.invalid_argument "sr must be a positive integer")
    else if installed .audiotsm = false then
      .error (.missing_capability "audiotsm is not installed for the Python running this app")
    else if stretch_factor ≤ 0 then
      .error (.invalid_argument "stretch_factor must be a positive finite number")
    else .ok (ext.audiotsm_run procedure audio_arr sr stretch_factor)

def audiotsm_wsola : StretchFn := fun ext installed audio sr f =>
  _audiotsm_stretch ext installed audio sr f "wsola"

def audiotsm_ola : StretchFn := fun ext installed audio sr f =>
  _audiotsm_stretch ext installed audio sr f "ola"

def audiotsm_phasevocoder : StretchFn := fun ext installed audio sr f =>
  _audiotsm_stretch ext installed audio sr f "phasevocoder"

/-- `_pylibrb_stretch` (lines 102-181): audio, sample-rate and factor
checks, then `_pylibrb_import` (raising `MissingDependencyError` when
pylibrb is absent), then the engine run (its internal `RuntimeError`
shape checks live in the opaque engine). -/
def _pylibrb_stretch (ext : StretchExternals) (installed : Dep → Bool)
    (audio : List ℚ) (sr : ℤ) (stretch_factor : ℚ)
    (engine preset : String) : Except StretchError (List ℚ) :=
  match _as_mono_float audio with
  | .error e => .error e
  | .ok audio_arr =>
    if sr ≤ 0 then .error (.invalid_argument "sr must be a positive integer")
    else if stretch_factor ≤ 0 then
      .error (.invalid_argument "stretch_factor must be a positive finite number")
    else if installed .pylibrb = false then
      .error (.missing_capability "pylibrb is not installed for the Python running this app")
    else .ok (ext.pylibrb_run engine preset audio_arr sr stretch_factor)

def rubberband_default_engine_faster : StretchFn := fun ext i a s f =>
  _pylibrb_stretch ext i a s f "ENGINE_FASTER" "PRESET_DEFAULT"

def rubberband_default_engine_finer : StretchFn := fun ext i a s f =>
  _pylibrb_stretch ext i a s f "ENGINE_FINER" "PRESET_DEFAULT"

def rubberband_percussive_engine_finer : StretchFn := fun ext i a s f =>
  _pylibrb_stretch ext i a s f "ENGINE_FINER" "PRESET_PERCUSSIVE"

/-- `np.median`. -/
def np_median (l : List ℚ) : ℚ :=
  let s := l.mergeSort fun a b => decide (a ≤ b)
  if s.length % 2 = 1 then s.getD (s.length / 2) 0
  else (s.getD (s.length / 2 - 1) 0 + s.getD (s.length / 2) 0) / 2

/-- `tdpsola` (lines 196-280): checks, the librosa import
(`MissingDependencyError`), the pyin estimate (`none` entries are the
non-finite frames), and the three `RuntimeError` branches; the pure
synthesis loop after them is the opaque `tdpsola_synth` collaborator. -/
def tdpsola : StretchFn := fun ext installed audio sr stretch_factor =>
  match _as_mono_float audio with
  | .error e => .error e
  | .ok audio_arr =>
    if sr ≤ 0 then .error (.invalid_argument "sr must be a positive integer")
    else if stretch_factor ≤ 0 then
      .error (.invalid_argument "stretch_factor must be a positive finite number")
    else if installed .librosa = false then
      .error (.missing_capability "librosa is required for TD-PSOLA")
    else
      let f0 := ext.pyin_f0 audio_arr sr
      if f0.length = 0 then .error (.generic "Failed to estimate f0 for TD-PSOLA")
      else
        let voiced := f0.filterMap id
        if voiced.length = 0 then .error (.generic "No voiced frames detected for TD-PSOLA")
        else
          let f0_med := np_median voiced
          if f0_med ≤ 0 then .error (.generic "Invalid f0 estimate for TD-PSOLA")
          else .ok (ext.tdpsola_synth audio_arr sr stretch_factor f0_med)

/-- `STRETCHERS` (time_stretch.py lines 283-291). -/
def STRETCHERS : List (String × StretchFn) :=
  [("audiotsm_wsola", audiotsm_wsola),
   ("audiotsm_ola", audiotsm_ola),
   ("audiotsm_phasevocoder", audiotsm_phasevocoder),
   ("rubberband_default_engine_faster", rubberband_default_engine_faster),
   ("rubberband_default_engine_finer", rubberband_default_engine_finer),
   ("rubberband_percussive_engine_finer", rubberband_percussive_engine_finer),
   ("tdpsola", tdpsola)]

/-- The optional dependency each registered back end imports
(`audiotsm` for the three audiotsm adapters, `pylibrb` for the three
rubberband adapters, `librosa` for `tdpsola`). -/
def STRETCHER_DEPS : List (String × Dep) :=
  [("audiotsm_wsola", .audiotsm),
   ("audiotsm_ola", .audiotsm),
   ("audiotsm_phasevocoder", .audiotsm),
   ("rubberband_default_engine_faster", .pylibrb),
   ("rubberband_default_engine_finer", .pylibrb),
   ("rubberband_percussive_engine_finer", .pylibrb),
   ("tdpsola", .librosa)]

/-- Dictionary lookup `STRETCHERS.get(method)`. -/
def lookup_stretcher (name : String) : List (String × StretchFn) → Option StretchFn
| [] => none
| (k, fn) :: rest => if k = name then some fn else lookup_stretcher name rest

/-- Time-stretch dispatch as performed by the callers:
`fn = STRETCHERS.get(stretch_method); if fn is None: raise ValueError(...)`
(ui/main_window.py lines 100-102; render_stretch_variants.py lines 62-66
reports the same unknown-method failure). -/
def dispatch_stretch (ext : StretchExternals) (installed : Dep → Bool) (method : String)
    (audio : List ℚ) (sr : ℤ) (stretch_factor : ℚ) : Except StretchError (List ℚ) :=
  match lookup_stretcher method STRETCHERS with
  | none => .error (.invalid_argument ("Unknown stretching method: " ++ method))
  | some fn => fn ext installed audio sr stretch_factor

theorem lookup_stretcher_eq_none (name : String) :
    ∀ l : List (String × StretchFn), name ∉ l.map Prod.fst →
      lookup_stretcher name l = none := by
  intro l
  induction l with
  | nil => intro _; rfl
  | cons e rest ih =>
    intro h
    obtain ⟨k, fn⟩ := e
    rw [lookup_stretcher, if_neg, ih]
    · intro hmem
      exact h (by simp [hmem])
    · intro hk
      exact h (by simp [hk])

/-- C8: time-stretch dispatch error taxonomy. An unregistered method name
fails with the `InvalidArgument` error; every registered back end whose
optional dependency is not installed fails (on otherwise valid arguments)
with a `MissingCapability` error, and `MissingCapability` is
distinguishable from both `InvalidArgument` and generic failure. -/
theorem stretch_dispatch_error_taxonomy :
    (∀ (ext : StretchExternals) (installed : Dep → Bool) (method : String)
        (audio : List ℚ) (sr : ℤ) (stretch_factor : ℚ),
      method ∉ STRETCHERS.map Prod.fst →
      dispatch_stretch ext installed method audio sr stretch_factor =
        .error (.invalid_argument ("Unknown stretching method: " ++ method))) ∧
    (∀ (ext : StretchExternals) (installed : Dep → Bool) (method : String) (dep : Dep)
        (audio : List ℚ) (sr : ℤ) (stretch_factor : ℚ),
      (method, dep) ∈ STRETCHER_DEPS → installed dep = false →
      audio.length ≠ 0 → 0 < sr → 0 < stretch_factor →
      ∃ msg, dispatch_stretch ext installed method audio sr stretch_factor =
        .error (.missing_capability msg)) ∧
    (∀ m1 m2 : String, StretchError.missing_capability m1 ≠ .invalid_argument m2 ∧
      StretchError.missing_capability m1 ≠ .generic m2) := by
  refine ⟨?_, ?_, ?_⟩
  · intro ext installed method audio sr f h
    rw [dispatch_stretch, lookup_stretcher_eq_none method _ h]
  · intro ext installed method dep audio sr f hmem hdep hlen hsr hf
    have hmono : _as_mono_float audio = .ok (audio.map fun s => min (max s (-1)) 1) := by
      rw [_as_mono_float, if_neg hlen]
    have hsr2 : ¬ sr ≤ 0 := not_le.mpr hsr
    have hf2 : ¬ f ≤ 0 := not_le.mpr hf
    fin_cases hmem <;>
      simp [dispatch_stretch, STRETCHERS, lookup_stretcher, audiotsm_wsola,
        audiotsm_ola, audiotsm_phasevocoder, rubberband_default_engine_faster,
        rubberband_default_engine_finer, rubberband_percussive_engine_finer,
        tdpsola, _audiotsm_stretch, _pylibrb_stretch, hmono, hdep, hsr2, hf2]
  · intro m1 m2
    exact ⟨(fun h => nomatch h), (fun h => nomatch h)⟩

/-- Witness for C8: an unknown method, and `tdpsola` with no optional
dependency installed. -/
theorem stretch_dispatch_error_taxonomy_witness :
    dispatch_stretch ⟨fun _ _ _ _ => [], fun _ _ _ _ _ => [], fun _ _ => [],
        fun _ _ _ _ => []⟩ (fun _ => false) "no_such_method" [1] 44100 2 =
      .error (.invalid_argument "Unknown stretching method: no_such_method") ∧
    (∃ msg, dispatch_stretch ⟨fun _ _ _ _ => [], fun _ _ _ _ _ => [], fun _ _ => [],
        fun _ _ _ _ => []⟩ (fun _ => false) "tdpsola" [1] 44100 2 =
      .error (.missing_capability msg)) ∧
    (StretchError.missing_capability "a" ≠ .invalid_argument "b" ∧
      StretchError.missing_capability "a" ≠ .generic "b") :=
  ⟨stretch_dispatch_error_taxonomy.1 _ (fun _ => false) "no_such_method" [1] 44100 2
      (by decide),
   stretch_dispatch_error_taxonomy.2.1 _ (fun _ => false) "tdpsola" .librosa [1] 44100 2
      (by decide) rfl (by decide) (by decide) (by norm_num),
   stretch_dispatch_error_taxonomy.2.2 "a" "b"⟩

/-- Modelled from the spec: the `AnalysisCache` component (spec sections 2,
3 and 4.1) has no implementation under `src/`; only the spec describes it.
Its key is (buffer identity, sample rate, voicing-mode, dilation); buffer
identity is modelled as an opaque id number (spec 4.1 keys by object
identity, not content). -/
structure CacheKey where
  buffer_id : ℕ
  sample_rate : ℤ
  mode : VoicingMode
  dilation : ℤ
deriving DecidableEq

/-- Modelled from the spec: the fixed capacity of the missing
`AnalysisCache` ("bounded size", "capacity 4", spec 4.1). -/
def cache_capacity : ℕ := 4

/-- Modelled from the spec: key lookup in the missing `AnalysisCache`,
whose state is held most-recently-used first ("at most one entry per
key", spec 3). -/
def cache_lookup {α : Type} (k : CacheKey) : List (CacheKey × α) → Option α
| [] => none
| (k2, v) :: rest => if k2 = k then some v else cache_lookup k rest

/-- Modelled from the spec: `get_or_compute(buffer, sample_rate,
voicing_mode, dilation_frames) -> AnalysisResult` of the missing
`AnalysisCache` (spec 4.1). Returns the result, the new cache state
(most-recently-used first) and whether the expensive analysis ran: a hit
returns the cached value and promotes its entry to most-recently-used; a
miss computes, inserts at the front and truncates to the capacity,
evicting the least-recently-used entry. -/
def get_or_compute {α : Type} (compute : CacheKey → α) (cache : List (CacheKey × α))
    (k : CacheKey) : α × List (CacheKey × α) × Bool :=
  match cache_lookup k cache with
  | some v => (v, (k, v) :: cache.filter (fun e => decide (e.1 ≠ k)), false)
  | none =>
    let v := compute k
    (v, ((k, v) :: cache).take cache_capacity, true)

theorem get_or_compute_head {α : Type} (compute : CacheKey → α)
    (cache : List (CacheKey × α)) (k : CacheKey) :
    ∃ rest, (get_or_compute compute cache k).2.1 =
      (k, (get_or_compute compute cache k).1) :: rest := by
  unfold get_or_compute
  cases h : cache_lookup k cache with
  | some v => exact ⟨_, rfl⟩
  | none => exact ⟨cache.take 3, by simp [cache_capacity]⟩

/-- C9 (spec-modelled): a repeated request with the same key returns the
identical result without recomputing; from an empty cache the first
request does compute; and a fifth pairwise-distinct key evicts exactly
the least-recently-used of the previous four entries. -/
theorem analysis_cache_spec {α : Type} (compute : CacheKey → α) :
    (∀ (cache : List (CacheKey × α)) (k : CacheKey),
      (get_or_compute compute ((get_or_compute compute cache k).2.1) k).1 =
        (get_or_compute compute cache k).1 ∧
      (get_or_compute compute ((get_or_compute compute cache k).2.1) k).2.2 = false) ∧
    (∀ k : CacheKey, (get_or_compute compute ([] : List (CacheKey × α)) k).2.2 = true) ∧
    (∀ k1 k2 k3 k4 k5 : CacheKey,
      k1 ≠ k2 → k1 ≠ k3 → k1 ≠ k4 → k1 ≠ k5 → k2 ≠ k3 → k2 ≠ k4 → k2 ≠ k5 →
      k3 ≠ k4 → k3 ≠ k5 → k4 ≠ k5 →
      ((get_or_compute compute
        (get_or_compute compute
          (get_or_compute compute
            (get_or_compute compute
              (get_or_compute compute ([] : List (CacheKey × α)) k1).2.1
              k2).2.1 k3).2.1 k4).2.1 k5).2.1).map Prod.fst = [k5, k4, k3, k2]) := by
  refine ⟨?_, ?_, ?_⟩
  · intro cache k
    obtain ⟨rest, hc⟩ := get_or_compute_head compute cache k
    set r := get_or_compute compute cache k with hr
    have hl : cache_lookup k ((k, r.1) :: rest) = some r.1 := by
      rw [cache_lookup, if_pos rfl]
    rw [hc]
    constructor <;> simp [get_or_compute, hl]
  · intro k
    rfl
  · intro k1 k2 k3 k4 k5 h12 h13 h14 h15 h23 h24 h25 h34 h35 h45
    simp [get_or_compute, cache_lookup, cache_capacity,
      h12, h13, h14, h15, h23, h24, h25, h34, h35, h45]

/-- Witness for C9 with five concrete keys. -/
theorem analysis_cache_spec_witness :
    (get_or_compute (fun _ => (0 : ℕ))
      ((get_or_compute (fun _ => (0 : ℕ)) [] ⟨0, 44100, .strict, 3⟩).2.1)
      ⟨0, 44100, .strict, 3⟩).2.2 = false ∧
    (get_or_compute (fun _ => (0 : ℕ)) [] ⟨0, 44100, .strict, 3⟩).2.2 = true ∧
    ((get_or_compute (fun _ => (0 : ℕ))
      (get_or_compute (fun _ => (0 : ℕ))
        (get_or_compute (fun _ => (0 : ℕ))
          (get_or_compute (fun _ => (0 : ℕ))
            (get_or_compute (fun _ => (0 : ℕ)) [] ⟨0, 44100, .strict, 3⟩).2.1
            ⟨1, 44100, .strict, 3⟩).2.1 ⟨2, 44100, .strict, 3⟩).2.1
        ⟨3, 44100, .strict, 3⟩).2.1 ⟨4, 44100, .strict, 3⟩).2.1).map Prod.fst =
      [⟨4, 44100, .strict, 3⟩, ⟨3, 44100, .strict, 3⟩,
       ⟨2, 44100, .strict, 3⟩, ⟨1, 44100, .strict, 3⟩] :=
  ⟨((analysis_cache_spec (fun _ => (0 : ℕ))).1 [] ⟨0, 44100, .strict, 3⟩).2,
   (analysis_cache_spec (fun _ => (0 : ℕ))).2.1 ⟨0, 44100, .strict, 3⟩,
   (analysis_cache_spec (fun _ => (0 : ℕ))).2.2 ⟨0, 44100, .strict, 3⟩
     ⟨1, 44100, .strict, 3⟩ ⟨2, 44100, .strict, 3⟩ ⟨3, 44100, .strict, 3⟩
     ⟨4, 44100, .strict, 3⟩ (by decide) (by decide) (by decide) (by decide)
     (by decide) (by decide) (by decide) (by decide) (by decide) (by decide)⟩

/-- `_NOTE_NAMES_SHARP` (utils/note_utils.py line 7). Python strings are
modelled as `List Char`. -/
def _NOTE_NAMES_SHARP : List (List Char) :=
  [['C'], ['C', '#'], ['D'], ['D', '#'], ['E'], ['F'], ['F', '#'],
   ['G'], ['G', '#'], ['A'], ['A', '#'], ['B']]

/-- The decimal digit character for `d < 10`. -/
def digit_char (d : ℕ) : Char := Char.ofNat (48 + d)

/-- Python `str` of a natural number: most-significant-first decimal
digits. -/
def nat_to_chars (n : ℕ) : List Char :=
  if n = 0 then ['0'] else (Nat.digits 10 n).reverse.map digit_char

/-- Python `str` of an `int`: optional minus sign then decimal digits. -/
def int_to_chars (i : ℤ) : List Char :=
  if i < 0 then '-' :: nat_to_chars (-i).toNat else nat_to_chars i.toNat

/-- `midi_to_note_name` (note_utils.py lines 47-51): sharp spelling from
`_NOTE_NAMES_SHARP[m % 12]` and octave `m // 12 - 1`; Python `%` / `//`
agree with `ℤ`'s `%` / `/` for the positive divisor 12. -/
def midi_to_note_name (midi : ℤ) : List Char :=
  _NOTE_NAMES_SHARP.getD (midi % 12).toNat [] ++ int_to_chars (midi / 12 - 1)

/-- The regex `\s` class on the ASCII characters Python can print here. -/
def is_py_space (c : Char) : Bool :=
  c == ' ' || c == '\t' || c == '\n' || c == '\r' || c == '\x0b' || c == '\x0c'

/-- Leading `\s*` of the note-name regex (note_utils.py line 54). -/
def drop_spaces (l : List Char) : List Char := l.dropWhile is_py_space

/-- The regex class `[A-Ga-g]`. -/
def is_note_letter (c : Char) : Bool :=
  c == 'A' || c == 'B' || c == 'C' || c == 'D' || c == 'E' || c == 'F' || c == 'G' ||
  c == 'a' || c == 'b' || c == 'c' || c == 'd' || c == 'e' || c == 'f' || c == 'g'

/-- The regex class `[#bB]`. -/
def is_accidental_char (c : Char) : Bool := c == '#' || c == 'b' || c == 'B'

/-- Python `int()` on a digit string (most-significant first). -/
def chars_to_nat (l : List Char) : ℕ := l.foldl (fun acc c => 10 * acc + (c.toNat - 48)) 0

/-- The optional leading minus of the regex group `(-?\d+)`. -/
def split_sign (l : List Char) : Bool × List Char :=
  match l with
  | [] => (false, [])
  | c :: r => if c = '-' then (true, r) else (false, c :: r)

/-- The third regex group `(-?\d+)` followed by `\s*$`, combined with
Python `int()` (note_utils.py lines 61-71). -/
def parse_signed_int (l : List Char) : Option ℤ :=
  let sr := split_sign l
  let ds := sr.2.takeWhile Char.isDigit
  let after := sr.2.dropWhile Char.isDigit
  if ds.length = 0 then none
  else if (drop_spaces after).length = 0 then
    some (if sr.1 then -(chars_to_nat ds : ℤ) else (chars_to_nat ds : ℤ))
  else none

/-- `_NAME_TO_PC` (note_utils.py lines 8-30). -/
def _NAME_TO_PC : List (List Char × ℕ) :=
  [(['C'], 0), (['B', '#'], 0), (['C', '#'], 1), (['D', 'B'], 1), (['D'], 2),
   (['D', '#'], 3), (['E', 'B'], 3), (['E'], 4), (['F', 'B'], 4), (['E', '#'], 5),
   (['F'], 5), (['F', '#'], 6), (['G', 'B'], 6), (['G'], 7), (['G', '#'], 8),
   (['A', 'B'], 8), (['A'], 9), (['A', '#'], 10), (['B', 'B'], 10), (['B'], 11),
   (['C', 'B'], 11)]

/-- Dictionary lookup in `_NAME_TO_PC`. -/
def lookup_pc (pitch : List Char) : List (List Char × ℕ) → Option ℕ
| [] => none
| (k, v) :: rest => if k = pitch then some v else lookup_pc pitch rest

/-- The accidental step of the regex `([#bB]?)`: greedy and, as shown by
case analysis on the following characters, equivalent to the backtracking
semantics (an accidental character can never begin the digit group). -/
def parse_accidental (l : List Char) : Option Char × List Char :=
  match l with
  | [] => (none, [])
  | c :: r => if is_accidental_char c then (some c, r) else (none, c :: r)

/-- `note_name_to_midi` (note_utils.py lines 57-74): match the regex
`^\s*([A-Ga-g])\s*([#bB]?)\s*(-?\d+)\s*$`, upper-case the pitch, look it
up in `_NAME_TO_PC`, and return `(octave + 1) * 12 + pc`; every failure
(`ValueError` in the source) is `none`. -/
def note_name_to_midi (name : List Char) : Option ℤ :=
  match drop_spaces name with
  | [] => none
  | letter :: rest =>
    if is_note_letter letter then
      let ar := parse_accidental (drop_spaces rest)
      let pitch := letter.toUpper ::
        (match ar.1 with
         | some a => [a.toUpper]
         | none => [])
      match lookup_pc pitch _NAME_TO_PC with
      | none => none
      | some pc =>
        match parse_signed_int (drop_spaces ar.2) with
        | none => none
        | some octave => some ((octave + 1) * 12 + (pc : ℤ))
    else none

theorem digit_char_toNat (d : ℕ) (hd : d < 10) : (digit_char d).toNat = 48 + d := by
  interval_cases d <;> decide

theorem digit_char_isDigit (d : ℕ) (hd : d < 10) : (digit_char d).isDigit = true := by
  interval_cases d <;> decide

theorem chars_to_nat_digits (ds : List ℕ) (h : ∀ d ∈ ds, d < 10) :
    chars_to_nat (ds.reverse.map digit_char) = Nat.ofDigits 10 ds := by
  induction ds with
  | nil => rfl
  | cons d rest ih =>
    have hd : d < 10 := h d (by simp)
    have hrest : ∀ x ∈ rest, x < 10 := fun x hx => h x (by simp [hx])
    rw [List.reverse_cons, List.map_append, chars_to_nat]
    simp only [List.map_cons, List.map_nil]
    rw [List.foldl_concat]
    have hfold : (rest.reverse.map digit_char).foldl
        (fun acc c => 10 * acc + (c.toNat - 48)) 0 = Nat.ofDigits 10 rest := ih hrest
    rw [hfold, Nat.ofDigits_cons, digit_char_toNat d hd]
    omega

theorem chars_to_nat_nat_to_chars (n : ℕ) : chars_to_nat (nat_to_chars n) = n := by
  by_cases hn : n = 0
  · subst hn; rfl
  · rw [nat_to_chars, if_neg hn,
      chars_to_nat_digits _ (fun d hd => Nat.digits_lt_base (by norm_num) hd),
      Nat.ofDigits_digits]

theorem nat_to_chars_ne_nil (n : ℕ) : nat_to_chars n ≠ [] := by
  by_cases hn : n = 0
  · subst hn; decide
  · rw [nat_to_chars, if_neg hn]
    intro h
    have h2 : Nat.digits 10 n = [] := by simpa using h
    exact Nat.digits_ne_nil_iff_ne_zero.mpr hn h2

theorem nat_to_chars_all_digits (n : ℕ) :
    ∀ c ∈ nat_to_chars n, c.isDigit = true := by
  by_cases hn : n = 0
  · subst hn; decide
  · rw [nat_to_chars, if_neg hn]
    intro c hc
    rw [List.mem_map] at hc
    obtain ⟨d, hd, rfl⟩ := hc
    exact digit_char_isDigit d (Nat.digits_lt_base (by norm_num) (List.mem_reverse.mp hd))

theorem isDigit_not_minus (c : Char) (h : c.isDigit = true) : ¬ c = '-' :=
  fun hc => by subst hc; exact absurd h (by decide)

theorem isDigit_not_space (c : Char) (h : c.isDigit = true) : is_py_space c = false := by
  cases hsp : is_py_space c
  · rfl
  · exfalso
    have hc : c = ' ' ∨ c = '\t' ∨ c = '\n' ∨ c = '\r' ∨ c = '\x0b' ∨ c = '\x0c' := by
      simpa [is_py_space, or_assoc] using hsp
    rcases hc with rfl | rfl | rfl | rfl | rfl | rfl <;> exact absurd h (by decide)

theorem isDigit_not_accidental (c : Char) (h : c.isDigit = true) :
    is_accidental_char c = false := by
  cases hac : is_accidental_char c
  · rfl
  · exfalso
    have hc : c = '#' ∨ c = 'b' ∨ c = 'B' := by
      simpa [is_accidental_char, or_assoc] using hac
    rcases hc with rfl | rfl | rfl <;> exact absurd h (by decide)

theorem nat_to_chars_head (n : ℕ) :
    ∃ c t, nat_to_chars n = c :: t ∧ c.isDigit = true := by
  cases hn : nat_to_chars n with
  | nil => exact absurd hn (nat_to_chars_ne_nil n)
  | cons c t =>
    refine ⟨c, t, rfl, nat_to_chars_all_digits n c ?_⟩
    rw [hn]
    simp

theorem nat_to_chars_takeWhile (n : ℕ) :
    (nat_to_chars n).takeWhile Char.isDigit = nat_to_chars n :=
  List.takeWhile_eq_self_iff.mpr (nat_to_chars_all_digits n)

theorem nat_to_chars_dropWhile (n : ℕ) :
    (nat_to_chars n).dropWhile Char.isDigit = [] := by
  rw [List.dropWhile_eq_nil_iff]
  intro c hc
  exact nat_to_chars_all_digits n c hc

theorem parse_signed_int_nat (n : ℕ) :
    parse_signed_int (nat_to_chars n) = some (n : ℤ) := by
  obtain ⟨c, t, hct, hcd⟩ := nat_to_chars_head n
  have hsplit : split_sign (nat_to_chars n) = (false, nat_to_chars n) := by
    rw [hct, split_sign, if_neg (isDigit_not_minus c hcd)]
  simp only [parse_signed_int, hsplit, nat_to_chars_takeWhile, nat_to_chars_dropWhile]
  rw [if_neg (by simpa using nat_to_chars_ne_nil n), if_pos (by rfl)]
  simp [chars_to_nat_nat_to_chars]

theorem parse_signed_int_int (o : ℤ) :
    parse_signed_int (int_to_chars o) = some o := by
  by_cases ho : o < 0
  · rw [int_to_chars, if_pos ho]
    have hsplit : split_sign ('-' :: nat_to_chars (-o).toNat) =
        (true, nat_to_chars (-o).toNat) := by
      rw [split_sign, if_pos rfl]
    simp only [parse_signed_int, hsplit, nat_to_chars_takeWhile, nat_to_chars_dropWhile]
    rw [if_neg (by simpa using nat_to_chars_ne_nil (-o).toNat), if_pos (by rfl)]
    simp only [if_true, Option.some.injEq, chars_to_nat_nat_to_chars]
    omega
  · rw [int_to_chars, if_neg ho, parse_signed_int_nat]
    congr 1
    omega

theorem drop_spaces_int_to_chars (o : ℤ) :
    drop_spaces (int_to_chars o) = int_to_chars o := by
  by_cases ho : o < 0
  · rw [int_to_chars, if_pos ho, drop_spaces, List.dropWhile_cons,
      if_neg (by decide)]
  · rw [int_to_chars, if_neg ho]
    obtain ⟨c, t, hct, hcd⟩ := nat_to_chars_head o.toNat
    rw [hct, drop_spaces, List.dropWhile_cons,
      if_neg (by simp [isDigit_not_space c hcd])]

theorem parse_accidental_int_to_chars (o : ℤ) :
    parse_accidental (int_to_chars o) = (none, int_to_chars o) := by
  by_cases ho : o < 0
  · rw [int_to_chars, if_pos ho, parse_accidental, if_neg (by decide)]
  · rw [int_to_chars, if_neg ho]
    obtain ⟨c, t, hct, hcd⟩ := nat_to_chars_head o.toNat
    rw [hct, parse_accidental, if_neg (by simp [isDigit_not_accidental c hcd])]

theorem note_name_to_midi_letter (L : Char) (hL : is_note_letter L = true)
    (hLs : is_py_space L = false) (pc : ℕ)
    (hpc : lookup_pc [L.toUpper] _NAME_TO_PC = some pc) (oct : ℤ) :
    note_name_to_midi (L :: int_to_chars oct) = some ((oct + 1) * 12 + (pc : ℤ)) := by
  have hds : drop_spaces (L :: int_to_chars oct) = L :: int_to_chars oct := by
    rw [drop_spaces, List.dropWhile_cons, if_neg (by simp [hLs])]
  simp [note_name_to_midi, hds, hL, drop_spaces_int_to_chars,
    parse_accidental_int_to_chars, hpc, parse_signed_int_int]

theorem note_name_to_midi_sharp (L : Char) (hL : is_note_letter L = true)
    (hLs : is_py_space L = false) (pc : ℕ)
    (hpc : lookup_pc [L.toUpper, '#'] _NAME_TO_PC = some pc) (oct : ℤ) :
    note_name_to_midi (L :: '#' :: int_to_chars oct) = some ((oct + 1) * 12 + (pc : ℤ)) := by
  have hds : drop_spaces (L :: '#' :: int_to_chars oct) = L :: '#' :: int_to_chars oct := by
    rw [drop_spaces, List.dropWhile_cons, if_neg (by simp [hLs])]
  have hds2 : drop_spaces ('#' :: int_to_chars oct) = '#' :: int_to_chars oct := by
    rw [drop_spaces, List.dropWhile_cons, if_neg (by decide)]
  have hacc : parse_accidental ('#' :: int_to_chars oct) = (some '#', int_to_chars oct) := by
    rw [parse_accidental, if_pos (by decide)]
  have hup : ('#').toUpper = '#' := by decide
  simp [note_name_to_midi, hds, hds2, hacc, hL, hup, drop_spaces_int_to_chars,
    hpc, parse_signed_int_int]

/-- `midi_to_freq` (note_utils.py lines 40-44): `440.0 * 2.0 ** ((m - 69) / 12)`
over the exact reals; the non-finiteness guard on the float argument cannot
fire for the integer midi numbers produced by `note_name_to_midi`. -/
noncomputable def midi_to_freq (midi : ℝ) : ℝ := 440 * (2 : ℝ) ^ ((midi - 69) / 12)

/-- `note_name_to_freq` (note_utils.py lines 77-78):
`midi_to_freq(float(note_name_to_midi(name)))`. -/
noncomputable def note_name_to_freq (name : List Char) : Option ℝ :=
  (note_name_to_midi name).map fun m => midi_to_freq (m : ℝ)

/-- C10: note-name round trip. For every integer MIDI number `m`, the
sharp-spelled name printed by `midi_to_note_name` parses back to `m`, so
`note_name_to_freq` after `midi_to_note_name` agrees with `midi_to_freq`,
and the name `A4` yields exactly 440 Hz. -/
theorem note_name_round_trip (m : ℤ) :
    note_name_to_midi (midi_to_note_name m) = some m ∧
    note_name_to_freq (midi_to_note_name m) = some (midi_to_freq (m : ℝ)) ∧
    note_name_to_freq ['A', '4'] = some 440 := by
  have hmain : note_name_to_midi (midi_to_note_name m) = some m := by
    have hmod0 : 0 ≤ m % 12 := Int.emod_nonneg m (by norm_num)
    have hcase : (m % 12).toNat = 0 ∨ (m % 12).toNat = 1 ∨ (m % 12).toNat = 2 ∨
        (m % 12).toNat = 3 ∨ (m % 12).toNat = 4 ∨ (m % 12).toNat = 5 ∨
        (m % 12).toNat = 6 ∨ (m % 12).toNat = 7 ∨ (m % 12).toNat = 8 ∨
        (m % 12).toNat = 9 ∨ (m % 12).toNat = 10 ∨ (m % 12).toNat = 11 := by
      have : m % 12 < 12 := Int.emod_lt_of_pos m (by norm_num)
      omega
    rcases hcase with h | h | h | h | h | h | h | h | h | h | h | h
    · have hn : midi_to_note_name m = 'C' :: int_to_chars (m / 12 - 1) := by
        simp [midi_to_note_name, h, _NOTE_NAMES_SHARP]
      rw [hn, note_name_to_midi_letter 'C' (by decide) (by decide) 0 (by decide)]
      simp only [Option.some.injEq]
      push_cast
      omega
    · have hn : midi_to_note_name m = 'C' :: '#' :: int_to_chars (m / 12 - 1) := by
        simp [midi_to_note_name, h, _NOTE_NAMES_SHARP]
      rw [hn, note_name_to_midi_sharp 'C' (by decide) (by decide) 1 (by decide)]
      simp only [Option.some.injEq]
      push_cast
      omega
    · have hn : midi_to_note_name m = 'D' :: int_to_chars (m / 12 - 1) := by
        simp [midi_to_note_name, h, _NOTE_NAMES_SHARP]
      rw [hn, note_name_to_midi_letter 'D' (by decide) (by decide) 2 (by decide)]
      simp only [Option.some.injEq]
      push_cast
      omega
    · have hn : midi_to_note_name m = 'D' :: '#' :: int_to_chars (m / 12 - 1) := by
        simp [midi_to_note_name, h, _NOTE_NAMES_SHARP]
      rw [hn, note_name_to_midi_sharp 'D' (by decide) (by decide) 3 (by decide)]
      simp only [Option.some.injEq]
      push_cast
      omega
    · have hn : midi_to_note_name m = 'E' :: int_to_chars (m / 12 - 1) := by
        simp [midi_to_note_name, h, _NOTE_NAMES_SHARP]
      rw [hn, note_name_to_midi_letter 'E' (by decide) (by decide) 4 (by decide)]
      simp only [Option.some.injEq]
      push_cast
      omega
    · have hn : midi_to_note_name m = 'F' :: int_to_chars (m / 12 - 1) := by
        simp [midi_to_note_name, h, _NOTE_NAMES_SHARP]
      rw [hn, note_name_to_midi_letter 'F' (by decide) (by decide) 5 (by decide)]
      simp only [Option.some.injEq]
      push_cast
      omega
    · have hn : midi_to_note_name m = 'F' :: '#' :: int_to_chars (m / 12 - 1) := by
        simp [midi_to_note_name, h, _NOTE_NAMES_SHARP]
      rw [hn, note_name_to_midi_sharp 'F' (by decide) (by decide) 6 (by decide)]
      simp only [Option.some.injEq]
      push_cast
      omega
    · have hn : midi_to_note_name m = 'G' :: int_to_chars (m / 12 - 1) := by
        simp [midi_to_note_name, h, _NOTE_NAMES_SHARP]
      rw [hn, note_name_to_midi_letter 'G' (by decide) (by decide) 7 (by decide)]
      simp only [Option.some.injEq]
      push_cast
      omega
    · have hn : midi_to_note_name m = 'G' :: '#' :: int_to_chars (m / 12 - 1) := by
        simp [midi_to_note_name, h, _NOTE_NAMES_SHARP]
      rw [hn, note_name_to_midi_sharp 'G' (by decide) (by decide) 8 (by decide)]
      simp only [Option.some.injEq]
      push_cast
      omega
    · have hn : midi_to_note_name m = 'A' :: int_to_chars (m / 12 - 1) := by
        simp [midi_to_note_name, h, _NOTE_NAMES_SHARP]
      rw [hn, note_name_to_midi_letter 'A' (by decide) (by decide) 9 (by decide)]
      simp only [Option.some.injEq]
      push_cast
      omega
    · have hn : midi_to_note_name m = 'A' :: '#' :: int_to_chars (m / 12 - 1) := by
        simp [midi_to_note_name, h, _NOTE_NAMES_SHARP]
      rw [hn, note_name_to_midi_sharp 'A' (by decide) (by decide) 10 (by decide)]
      simp only [Option.some.injEq]
      push_cast
      omega
    · have hn : midi_to_note_name m = 'B' :: int_to_chars (m / 12 - 1) := by
        simp [midi_to_note_name, h, _NOTE_NAMES_SHARP]
      rw [hn, note_name_to_midi_letter 'B' (by decide) (by decide) 11 (by decide)]
      simp only [Option.some.injEq]
      push_cast
      omega
  refine ⟨hmain, ?_, ?_⟩
  · rw [note_name_to_freq, hmain]
    rfl
  · have hA : note_name_to_midi ['A', '4'] = some 69 := by decide
    rw [note_name_to_freq, hA]
    have hv : midi_to_freq (69 : ℝ) = 440 := by
      rw [midi_to_freq, show ((69 : ℝ) - 69) / 12 = (0 : ℝ) by norm_num,
        Real.rpow_zero, mul_one]
    simp [hv]

end SpartanTuner
